import Mathlib

/-!
Verification development for the Linqly row-selection engine.

Shallow embedding of the selection engine of the Linqly browser extension:
the stable row identity resolver (`getRowUid`), the checkbox state adapter
(`getCheckboxState` / `setCheckboxState`, in both its content.js and
LinqlyUtils variants), the shift-click range-selection algorithm of
`rowClickSelectFeature.attachDelegatedListener` (content.js), the
tree-structured range selection of `NewBillsRowSelector.handleTableClick`
(pages/newbills.js), and the lifecycle bookkeeping (delegated-listener
idempotence, route-change teardown, enabled-flag handling, and the feature
manager's per-module error isolation).

DOM elements are modelled by records carrying exactly the fields the engine
reads; event dispatches and host notifications are recorded as an explicit
action trace.  Deferred re-assertions (the 10ms `setTimeout` blocks that
re-write `checkbox.checked = newState` after the notification events) are
folded into the eventual checkbox state, and the intermediate transient of
a native `.click()` call is recorded as a trace action rather than a state
toggle, since the engine always re-asserts the target state afterwards.
-/

/-! ## String helpers (JS semantics) -/

/-- JS `a || b` on the result of `getAttribute`: `null` and the empty
string are falsy, any other string is returned as-is. -/
def jsOrAttr (a : Option String) (b : String) : String :=
  match a with
  | some s => if s = "" then b else s
  | none => b

/-- Char-list test: `pat` begins the list `s`. -/
def beginsWith : List Char → List Char → Bool
  | [], _ => true
  | _ :: _, [] => false
  | a :: as, b :: bs => a == b && beginsWith as bs

/-- Char-list test: `pat` occurs somewhere inside the list. -/
def occursIn (pat : List Char) : List Char → Bool
  | [] => beginsWith pat []
  | s@(_ :: rest) => beginsWith pat s || occursIn pat rest

/-- JS `href.includes(pat)` (substring containment). -/
def strIncludes (s pat : String) : Bool :=
  occursIn pat.data s.data

/-- JS `/^pat/.test(s)` for a literal pattern: `s` starts with `pat`. -/
def strStartsWith (s pat : String) : Bool :=
  beginsWith pat.data s.data

/-! ## Checkbox state adapter

A control is either a native `input[type=checkbox]` or a custom
`span[role=checkbox]` widget.  `Checkbox` carries every field the adapter
reads: the `aria-checked` attribute, the CSS classes consulted by the
tri-state fallback, the native `checked` property, and the environment
facts that steer the notification sequence (`ng-model` presence, an
enclosing `.th-checkbox`/`td.row-selection-checkbox` container, an
associated hidden input, and whether the widget's `ng-click` names
`dataTableCtrl.rowCheckboxClickHandler`). -/

structure Checkbox where
  /-- `tagName === 'SPAN' && getAttribute('role') === 'checkbox'` -/
  isSpan : Bool
  /-- `getAttribute('aria-checked')` (`none` = attribute absent) -/
  ariaChecked : Option String
  /-- `classList.contains('checked')` -/
  clsChecked : Bool
  /-- `classList.contains('ng-not-empty')` -/
  clsNgNotEmpty : Bool
  /-- `classList.contains('ng-empty')` -/
  clsNgEmpty : Bool
  /-- native `checked` property -/
  checked : Bool
  /-- `hasAttribute('ng-model')` -/
  hasNgModel : Bool
  /-- `closest('.th-checkbox, td.row-selection-checkbox')` exists (≠ self) -/
  hasParentContainer : Bool
  /-- an associated hidden `input[type=checkbox]` is found near the span -/
  hasHiddenInput : Bool
  /-- `getAttribute('ng-click')` mentions `dataTableCtrl.rowCheckboxClickHandler` -/
  ngClickHasRowHandler : Bool
deriving DecidableEq

/-- content.js `getCheckboxState` (= LinqlyUtils.getCheckboxState):
custom spans read `aria-checked`, falling back to CSS classes when the
attribute is neither `'true'` nor `'false'`; native inputs read `checked`. -/
def getCheckboxState (cb : Checkbox) : Bool :=
  if cb.isSpan then
    if cb.ariaChecked == some "true" then true
    else if cb.ariaChecked == some "false" then false
    else cb.clsChecked || (cb.clsNgNotEmpty && !cb.clsNgEmpty)
  else cb.checked

/-- The write-through part of `setCheckboxState`: the control's eventual
state after the handler and its deferred re-assertions have run.  Custom
spans get `aria-checked` and the three CSS classes rewritten; native
inputs get `checked` rewritten (re-asserted by the deferred block after
the intermediate `.click()` transient). -/
def applyCheckboxState (cb : Checkbox) (b : Bool) : Checkbox :=
  if cb.isSpan then
    { cb with ariaChecked := some (if b then "true" else "false"),
              clsChecked := b, clsNgNotEmpty := b, clsNgEmpty := !b }
  else { cb with checked := b }

/-- One externally visible step taken by the state adapter: attribute or
property writes, and every dispatched notification.  `deferred…` actions
are those scheduled by `setTimeout` inside the adapter. -/
inductive Act
  | setAriaChecked (b : Bool)
  | updateCssClasses (b : Bool)
  | setHiddenInputChecked (b : Bool)
  | callClick
  | dispatchSyntheticClick
  | callAngularRowHandler
  | dispatchCustomRowCheckboxClick
  | dispatchChange
  | dispatchInput
  | dispatchClickEvent
  | clickParentRow
  | clickParentContainer
  | setChecked (b : Bool)
  | deferredSetChecked (b : Bool)
  | deferredDispatchChange
  | deferredDispatchInput
  | deferredClickRow
  | deferredVerifyState
deriving DecidableEq

/-- Notification sequence of the shared native-checkbox branch
(content.js lines 1302–1367 / shared utils): set `checked`, then either
the Matters ng-model path (change/input + parent-container click) or the
generic path (`.click()`, synthetic click, deferred re-assertion with
change/input and a Kendo row click). -/
def nativeProceedActions (cb : Checkbox) (b : Bool) (rowIsKendo matters : Bool) :
    List Act :=
  Act.setChecked b ::
    (if matters && cb.hasNgModel then
      [Act.dispatchChange, Act.dispatchInput] ++
        (if cb.hasParentContainer then [Act.clickParentContainer] else [])
    else
      [Act.callClick, Act.dispatchSyntheticClick,
       Act.deferredSetChecked b, Act.deferredDispatchChange,
       Act.deferredDispatchInput] ++
        (if rowIsKendo then [Act.deferredClickRow] else []))

/-- Notification sequence of content.js's custom-span branch (lines
1141–1287): rewrite `aria-checked` and classes, update any associated
hidden input, `.click()`, a synthetic click, the Angular-handler layer
when `ng-click` names the row handler, a plain click event, a click on
the parent row, and the deferred state verification. -/
def spanDriveActions (cb : Checkbox) (b : Bool) : List Act :=
  [Act.setAriaChecked b, Act.updateCssClasses b] ++
    (if cb.hasHiddenInput then [Act.setHiddenInputChecked b] else []) ++
    [Act.callClick, Act.dispatchSyntheticClick] ++
    (if cb.ngClickHasRowHandler then
      [Act.callAngularRowHandler, Act.dispatchCustomRowCheckboxClick,
       Act.dispatchChange, Act.dispatchInput]
    else []) ++
    [Act.dispatchClickEvent, Act.clickParentRow, Act.deferredVerifyState]

/-- content.js `rowClickSelectFeature.setCheckboxState` (lines 1137–1368).
The custom-span branch runs unconditionally (no equal-state guard).  The
native branch returns early when the current state already equals the
desired state — except that `newState === true` still proceeds, the
range-selection re-assert.  Returns the eventual control state and the
action trace. -/
def setCheckboxState (cb : Checkbox) (newState : Bool)
    (rowIsKendo isMattersPage : Bool) : Checkbox × List Act :=
  if cb.isSpan then
    (applyCheckboxState cb newState, spanDriveActions cb newState)
  else
    let currentState := getCheckboxState cb
    -- source: `if (current === new && new === true)` falls through to the
    -- re-assert; `else if (current === new) return;` — i.e. return exactly
    -- when the states agree and the desired state is false.
    if currentState == newState && !newState then (cb, [])
    else (applyCheckboxState cb newState,
          nativeProceedActions cb newState rowIsKendo isMattersPage)

/-- `LinqlyUtils.setCheckboxState` (shared/utils.js, src/unnamed/part_003
lines 50–142).  The custom-span branch toggles via a single `.click()`
only when the state differs (letting Angular mutate the widget, so the
modelled state is left to the host); the native branch is identical to
content.js's. -/
def setCheckboxStateUtils (cb : Checkbox) (newState : Bool)
    (rowIsKendo : Bool) (pageType : String) : Checkbox × List Act :=
  if cb.isSpan then
    if getCheckboxState cb != newState then (cb, [Act.callClick])
    else (cb, [])
  else
    let currentState := getCheckboxState cb
    if currentState == newState && !newState then (cb, [])
    else (applyCheckboxState cb newState,
          nativeProceedActions cb newState rowIsKendo (pageType == "matters"))

/-! ## Rows and the stable identity resolver -/

/-- A grid row (a `tr` inside the grid's `tbody`), carrying the attributes
read by `getRowUid`, the visibility test (`offsetParent !== null`),
whether it matches the row selector
`tr[role="row"]:not(.k-grouping-row):not(.k-detail-row)`, whether it is a
Kendo master/edit row, and the checkbox resolved by the page profile's
checkbox selector (if any). -/
structure Row where
  dataUid : Option String
  dataKendoUid : Option String
  id : Option String
  dataRowIndex : Option String
  textContent : String
  visible : Bool
  isGridRow : Bool
  isKendoRow : Bool
  checkbox : Option Checkbox
deriving DecidableEq

/-- `getRowUid` (content.js lines 1096–1103 = LinqlyUtils.getRowUid):
`data-uid || data-kendo-uid || id || data-row-index ||
textContent.trim().substring(0, 50)`. -/
def getRowUid (r : Row) : String :=
  jsOrAttr r.dataUid
    (jsOrAttr r.dataKendoUid
      (jsOrAttr r.id
        (jsOrAttr r.dataRowIndex (r.textContent.trim.take 50))))

/-- The attribute-selector lookup used to re-resolve a live row:
`tr[data-uid=u], tr[data-kendo-uid=u], tr[id=u], tr[data-row-index=u]`
(content.js lines 1013 and 1038).  Matches any `tr`, not only rows that
match the grid row selector. -/
def attrMatches (uid : String) (r : Row) : Bool :=
  r.dataUid == some uid || r.dataKendoUid == some uid ||
    r.id == some uid || r.dataRowIndex == some uid

/-- A row is attribute-coherent when each identity attribute it carries
agrees with its computed uid, so an attribute-selector hit can never
resolve to a row with a different identity. -/
def attrCoherent (r : Row) : Bool :=
  r.dataUid.all (fun v => getRowUid r == v) &&
  r.dataKendoUid.all (fun v => getRowUid r == v) &&
  r.id.all (fun v => getRowUid r == v) &&
  r.dataRowIndex.all (fun v => getRowUid r == v)

/-- The host-observable selected state of a row: its checkbox's state
(rows without a recognised checkbox count as unselected). -/
def rowSelected (r : Row) : Bool :=
  match r.checkbox with
  | some cb => getCheckboxState cb
  | none => false

/-! ## Range-selection algorithm (content.js `handleClick`, lines 869–1076)

The grid is the list of `tr` elements of the `tbody` the clicked row lives
in, in DOM order.  The gesture-classification preamble (`event.isTrusted`,
interactive-element and direct-checkbox-click filters) drops the event
before any engine state is touched; `handleClick` below models a click
that has been classified as landing on the row at index `tIdx`. -/

/-- Drive a row's checkbox to the selected state through the content.js
state adapter (`setCheckboxState(checkboxInRange, true, row, isMattersPage)`);
rows whose checkbox selector finds nothing are left alone. -/
def driveRowContent (r : Row) (m : Bool) : Row :=
  match r.checkbox with
  | some cb => { r with checkbox := some (setCheckboxState cb true r.isKendoRow m).1 }
  | none => r

/-- Replace the row at index `i` by its driven version (the in-place DOM
mutation of that row's checkbox). -/
def driveRowAt (g : List Row) (i : Nat) (m : Bool) : List Row :=
  match g[i]? with
  | some r => g.set i (driveRowContent r m)
  | none => g

/-- Re-resolve a uid to a live row (content.js lines 1013–1021): first the
attribute selector over every `tr`, then — only when that finds nothing —
a scan of the rows matching the grid row selector comparing `getRowUid`. -/
def findLiveRowIdx (g : List Row) (uid : String) : Option Nat :=
  match g.findIdx? (fun r => attrMatches uid r) with
  | some i => some i
  | none => g.findIdx? (fun r => r.isGridRow && (getRowUid r == uid))

/-- One iteration of the range loop body for a uid that is not skipped:
resolve the live row and drive its checkbox. -/
def processRangeUid (g : List Row) (uid : String) (m : Bool) : List Row :=
  match findLiveRowIdx g uid with
  | some i => driveRowAt g i m
  | none => g

/-- The shift-click branch of content.js `handleClick` (lines 941–1057):
collect visible grid rows, map them to uids, locate anchor and target by
`indexOf`, abort when either is `-1`, loop over the inclusive uid range
skipping the anchor uid (to preserve its state) and the target uid
(handled separately), re-resolving each uid to a live row; finally the
target row is re-resolved by the attribute selector only and driven. -/
def shiftClickContent (g : List Row) (anchorRow targetRow : Row) (m : Bool) :
    List Row :=
  let allRowsInDom := g.filter (fun r => r.isGridRow)
  let visibleRows := allRowsInDom.filter (fun r => r.visible)
  let visibleRowUids := visibleRows.map getRowUid
  let startUid := getRowUid anchorRow
  let endUid := getRowUid targetRow
  match visibleRowUids.findIdx? (· == startUid),
        visibleRowUids.findIdx? (· == endUid) with
  | some startIndex, some endIndex =>
    let rangeStart := min startIndex endIndex
    let rangeEnd := max startIndex endIndex
    let sliceUids := (visibleRowUids.drop rangeStart).take (rangeEnd + 1 - rangeStart)
    let g1 := sliceUids.foldl
      (fun acc u => if u == startUid || u == endUid then acc
                    else processRangeUid acc u m) g
    match g1.findIdx? (fun r => attrMatches endUid r) with
    | some ti => driveRowAt g1 ti m
    | none => g1
  | _, _ => g

/-- The normal-click update of the clicked row: toggle its checkbox
through the state adapter (`setCheckboxState(checkbox, !current, row, m)`). -/
def plainClickRow (r : Row) (m : Bool) : Row :=
  match r.checkbox with
  | some cb =>
    let newState := !getCheckboxState cb
    { r with checkbox := some (setCheckboxState cb newState r.isKendoRow m).1 }
  | none => r

/-- content.js `handleClick` after gesture classification: the click lands
on the row at `tIdx` of grid `g`; `anchor` is `this.lastClickedRow`,
`shift` is `event.shiftKey`, `m` is `isMattersPage`.  Returns the updated
grid and the updated anchor.  A missing row or missing checkbox returns
untouched state; shift with a live anchor runs the range branch and
explicitly preserves the anchor; otherwise the normal-click branch toggles
the row and makes it the new anchor. -/
def handleClickContent (g : List Row) (anchor : Option Row) (shift : Bool)
    (tIdx : Nat) (m : Bool) : List Row × Option Row :=
  match g[tIdx]? with
  | none => (g, anchor)
  | some row =>
    match row.checkbox with
    | none => (g, anchor)
    | some _ =>
      match shift, anchor with
      | true, some a => (shiftClickContent g a row m, anchor)
      | _, _ => (g.set tIdx (plainClickRow row m), some (plainClickRow row m))

/-- The two-gesture experiment of the spec's range tests: a plain click on
the row at index `i` starting from no anchor, followed by a shift-click on
the row at index `j`. -/
def runPair (g : List Row) (i j : Nat) (m : Bool) : List Row × Option Row :=
  let s1 := handleClickContent g none false i m
  handleClickContent s1.1 s1.2 true j m

/-! ## New-bills tree-view selection (pages/newbills.js `handleTableClick`) -/

/-- A row of the new-bills tree view: `tr.cc-tree-view-item` (parent /
client) or `tr.cc-tree-view-subitem` (child / matter), its checkbox (if
any) and that checkbox's `checked` state. -/
structure NBRow where
  /-- `classList.contains('cc-tree-view-item')` -/
  isItem : Bool
  /-- `classList.contains('cc-tree-view-subitem')` -/
  isSubitem : Bool
  /-- `row.querySelector('input[type="checkbox"]')` finds a checkbox -/
  hasCheckbox : Bool
  checked : Bool
deriving DecidableEq

/-- newbills.js `selectCheckbox` (lines 136–148): drive the row's checkbox
to checked only when it exists and is not already checked (the change /
input dispatches and the deferred `.click()` notify the host; the
engine-driven eventual state is `checked = true`). -/
def selectCheckbox (r : NBRow) : NBRow :=
  if r.hasCheckbox && !r.checked then { r with checked := true } else r

/-- The range loop of newbills.js (lines 150–162), position-indexed from
`i₀`: every row whose index lies in `[lo, hi]` is selected, except that
when `onlySub` is set (anchor and target both child rows) parent rows in
the range are skipped. -/
def nbRangeLoop (lo hi : Nat) (onlySub : Bool) : Nat → List NBRow → List NBRow
  | _, [] => []
  | i, r :: rs =>
    (if lo ≤ i ∧ i ≤ hi ∧ (onlySub → r.isSubitem = true) then selectCheckbox r
     else r) :: nbRangeLoop lo hi onlySub (i + 1) rs

/-- The normal-click branch of `handleTableClick` (lines 167–192): toggle
the clicked row's checkbox when the row is a parent or child row, then
unconditionally record the row as the anchor. -/
def nbNormalClick (rows : List NBRow) (tIdx : Nat) (row : NBRow) :
    List NBRow × Option Nat :=
  (if row.isItem || row.isSubitem then
    rows.set tIdx { row with checked := !row.checked }
   else rows,
   some tIdx)

/-- newbills.js `NewBillsRowSelector.handleTableClick` (lines 97–193)
after the direct-checkbox-click / interactive-element filter: a click on
the row at index `tIdx` of the tree view's row list (`allRows`, DOM
order).  The anchor is the index of `this.lastClickedRow`; the JS
`allRows.includes(lastClickedRow)` guard is modelled by the anchor index
being in bounds.  A shift-click with a live anchor selects the inclusive
range — restricted to child rows when both endpoints are child rows — and
leaves the anchor untouched; otherwise the normal-click branch runs. -/
def nbHandleTableClick (rows : List NBRow) (anchor : Option Nat)
    (shift : Bool) (tIdx : Nat) : List NBRow × Option Nat :=
  match rows[tIdx]? with
  | none => (rows, anchor)
  | some row =>
    if !row.hasCheckbox then (rows, anchor)
    else
      match shift, anchor with
      | true, some a =>
        match rows[a]? with
        | some anchorRow =>
          let start := min a tIdx
          let stop := max a tIdx
          let onlySub := anchorRow.isSubitem && row.isSubitem
          (nbRangeLoop start stop onlySub 0 rows, anchor)
        | none => nbNormalClick rows tIdx row
      | _, _ => nbNormalClick rows tIdx row

/-! ## Route lifecycle of `rowClickSelectFeature` (content.js) -/

/-- `rowClickSelectFeature.shouldInitialize` (content.js lines 674–690):
on `app.clio.com/nc/#/`, excluding auth pages, the new-bills page, and
new / edit / create / settings pages. -/
def shouldInitializeRCS (href : String) : Bool :=
  strStartsWith href "https://app.clio.com/nc/#/" &&
  !(strIncludes href "/login" || strIncludes href "/auth" ||
    strIncludes href "/sign_in" || strIncludes href "/sign_up" ||
    strIncludes href "/password" || strIncludes href "/billing") &&
  !strIncludes href "/bills/new_bills" &&
  !strIncludes href "/matters/new" &&
  !strIncludes href "/contacts/new" &&
  !strIncludes href "/settings/" &&
  !strIncludes href "/new" &&
  !strIncludes href "/edit" &&
  !strIncludes href "/create"

/-- Per-module state of `rowClickSelectFeature`: the delegated click
listener, the route observer (`hashchange`/`popstate` listeners plus the
`MutationObserver`), the cached grid container, the last-seen URL, the
init flag and the selection anchor. -/
structure RCSState where
  listenerInstalled : Bool
  routeObserverInstalled : Bool
  tableBodySet : Bool
  currentPath : String
  isInitialized : Bool
  anchor : Option Row
deriving DecidableEq

/-- `rowClickSelectFeature.detach` (content.js lines 1435–1454): removes
the click listener and clears the anchor and cached state, but — per the
source comment "Don't clean up route observer - keep it active to detect
route changes" — leaves the route observer installed. -/
def detachRCS (s : RCSState) : RCSState :=
  { s with listenerInstalled := false, currentPath := "", tableBodySet := false,
           isInitialized := false, anchor := none }

/-- `rowClickSelectFeature.cleanupRouteObserver` (lines 756–767): removes
the `hashchange`/`popstate` listeners and disconnects the mutation
observer. -/
def cleanupRouteObserverRCS (s : RCSState) : RCSState :=
  { s with routeObserverInstalled := false }

/-- `rowClickSelectFeature.handleRouteChange` (content.js lines 693–724)
for a navigation to `href`.  Note that the source computes
`wasOnSupportedPage` by calling `shouldInitialize()` after the URL has
already changed, so it coincides with `isOnSupportedPage`; on an
unsupported page the `else` branch detaches, and the trailing statement
clears the anchor.  (The call into `featureManager.handleRouteChange`
and the deferred `initializeIfNeeded` concern other state and are modelled
separately.) -/
def handleRouteChangeRCS (s : RCSState) (href : String) : RCSState :=
  let wasOnSupportedPage := shouldInitializeRCS href
  let s1 := { s with currentPath := href }
  let isOnSupportedPage := shouldInitializeRCS href
  if wasOnSupportedPage && !isOnSupportedPage then detachRCS s1
  else
    let s2 := if isOnSupportedPage then s1 else detachRCS s1
    { s2 with anchor := none }

/-! ## Delegated-listener bookkeeping (attach idempotence) -/

/-- The click-listener registrations a module owns: `installed` is the
list of listener registrations currently live on the module's containers
(each identified by a token), `stored` is the token whose removal closure
is held in `this.listener`. -/
structure DelegatedListeners where
  installed : List Nat
  stored : Option Nat
deriving DecidableEq

/-- `attachDelegatedListener`'s bookkeeping (content.js lines 858–866 and
1084–1090, likewise matters.js lines 107–114 and 474–481): if a cleanup
closure is stored, run it (removing the previously installed listener)
and null it, then register the new listener and store its cleanup. -/
def attachDelegated (s : DelegatedListeners) (t : Nat) : DelegatedListeners :=
  let s1 : DelegatedListeners := match s.stored with
    | some u => { installed := s.installed.erase u, stored := none }
    | none => s
  { installed := s1.installed ++ [t], stored := some t }

/-- The module's listener bookkeeping invariant: exactly the listener
recorded in `this.listener` is live. -/
def listenerInv (s : DelegatedListeners) : Prop :=
  s.installed = s.stored.toList

/-- How many times one simulated click on the container invokes this
module's delegated handler. -/
def handlerInvocationsPerClick (s : DelegatedListeners) : Nat :=
  s.installed.length

/-! ## Enabled-flag handling (`applyEnabledState`, content.js 1824–1841)

The three modules registered with the feature manager (content.js lines
1819–1821) are `rowClickSelectFeature`, `checkboxDeselectFeature` and
`newBillsPageFeature`.  The environment records the facts their
initialize/detach read from the document. -/

/-- Facts about the current document: the URL, whether `.k-grid-content`
is present, and whether the `.cc-tree-view` table the new-bills module
attached to is present. -/
structure Env where
  href : String
  gridPresent : Bool
  treePresent : Bool
deriving DecidableEq

/-- `checkboxDeselectFeature` state: its two document-level listeners
(capturing click and keydown) and the init flag. -/
structure CDState where
  isInitialized : Bool
  clickListener : Bool
  keydownListener : Bool
deriving DecidableEq

/-- `checkboxDeselectFeature.shouldInitialize` (content.js lines
1463–1477) is textually the same predicate as
`rowClickSelectFeature.shouldInitialize`. -/
def shouldInitializeCD (href : String) : Bool :=
  shouldInitializeRCS href

/-- `checkboxDeselectFeature.initialize` (lines 1479–1493). -/
def cdInitialize (s : CDState) : CDState :=
  if s.isInitialized then s
  else { isInitialized := true, clickListener := true, keydownListener := true }

/-- `checkboxDeselectFeature.detach` (lines 1547–1559). -/
def cdDetach (s : CDState) : CDState :=
  if !s.isInitialized then s
  else { isInitialized := false, clickListener := false, keydownListener := false }

/-- `newBillsPageFeature` (content.js lines 1563–1815) state: the table
click listener, the document-level keydown and capturing click listeners,
and the mutation observer. -/
structure NBFeatState where
  isInitialized : Bool
  tableListener : Bool
  keydownListener : Bool
  clickListener : Bool
  observerInstalled : Bool
deriving DecidableEq

/-- `newBillsPageFeature.shouldInitialize` (lines 1570–1575). -/
def shouldInitializeNB (href : String) : Bool :=
  strIncludes href "/bills/new_bills"

/-- `newBillsPageFeature.initialize` (lines 1577–1593):
`setupTableHandlers` attaches the table listener only when the tree view
is found; the deselect handlers and the route observer are always set up. -/
def nbInitialize (env : Env) (s : NBFeatState) : NBFeatState :=
  if s.isInitialized then s
  else { isInitialized := true,
         tableListener := if env.treePresent then true else s.tableListener,
         keydownListener := true, clickListener := true,
         observerInstalled := true }

/-- `newBillsPageFeature.detach` (lines 1782–1814): the table listener is
removed through a fresh `document.querySelector('.cc-tree-view')`, so it
is only removed when that table is still in the document; the document
listeners and the observer are always removed. -/
def nbDetach (env : Env) (s : NBFeatState) : NBFeatState :=
  if !s.isInitialized then s
  else { isInitialized := false,
         tableListener := if env.treePresent then false else s.tableListener,
         keydownListener := false, clickListener := false,
         observerInstalled := false }

/-- `rowClickSelectFeature.initialize` (content.js lines 797–856): detach
first, set up the route observer if absent, then attach the delegated
listener when the grid container is found (the retry observer and timers
used when it is not yet rendered are elided — they only attach later). -/
def rcsInitialize (env : Env) (s : RCSState) : RCSState :=
  let s1 := detachRCS s
  let s2 := if !s1.routeObserverInstalled
            then { s1 with routeObserverInstalled := true } else s1
  if env.gridPresent then
    { s2 with tableBodySet := true, listenerInstalled := true, isInitialized := true }
  else s2

/-- Combined state of the three registered modules. -/
structure SysState where
  rcs : RCSState
  cd : CDState
  nb : NBFeatState
deriving DecidableEq

/-- `featureManager.init` (content.js lines 600–610) over the three
registered modules: initialize each whose `shouldInitialize()` holds. -/
def featureManagerInit (env : Env) (s : SysState) : SysState :=
  { rcs := if shouldInitializeRCS env.href then rcsInitialize env s.rcs else s.rcs,
    cd := if shouldInitializeCD env.href then cdInitialize s.cd else s.cd,
    nb := if shouldInitializeNB env.href then nbInitialize env s.nb else s.nb }

/-- `applyEnabledState` (content.js lines 1824–1841): enabled runs
`featureManager.init()`; disabled detaches each module, additionally
running `cleanupRouteObserver` for `rowClickSelectFeature`. -/
def applyEnabledState (env : Env) (enabled : Bool) (s : SysState) : SysState :=
  if enabled then featureManagerInit env s
  else
    { rcs := cleanupRouteObserverRCS (detachRCS s.rcs),
      cd := cdDetach s.cd,
      nb := nbDetach env s.nb }

/-! ## Feature-manager failure isolation (content.js 600–610, 612–659)

Duck-typed page modules as the manager sees them: an optional
`shouldInitialize`, a mandatory `initialize` (checked by `register`), an
optional `detach`, and an optional `isInitialized` field.  Whether an
operation throws is a property of the module. -/

structure FMModule where
  hasShouldInit : Bool
  /-- value of `shouldInitialize()` at this evaluation -/
  shouldInit : Bool
  hasDetach : Bool
  initThrows : Bool
  detachThrows : Bool
  /-- `none` models an undefined `isInitialized` field -/
  isInitialized : Option Bool
deriving DecidableEq

/-- A module's `initialize()` as an exception-transparent computation
(the registered modules set their own `isInitialized` flag on success). -/
def moduleInitOp (f : FMModule) : Except Unit FMModule :=
  if f.initThrows then .error ()
  else .ok { f with isInitialized := f.isInitialized.map (fun _ => true) }

/-- A module's `detach()`; on success the manager additionally resets a
defined `isInitialized` field (content.js lines 636–639). -/
def moduleDetachOp (f : FMModule) : Except Unit FMModule :=
  if f.detachThrows then .error ()
  else .ok { f with isInitialized := f.isInitialized.map (fun _ => false) }

/-- One iteration of `featureManager.init`'s `forEach` body, with its
`try`/`catch`: run `initialize` when `!shouldInitialize || shouldInitialize()`;
a thrown error is caught and logged (the `Bool` of the result). -/
def fmEvalInitOne (f : FMModule) : FMModule × Bool :=
  match (if !f.hasShouldInit || f.shouldInit then moduleInitOp f else .ok f) with
  | .ok f' => (f', false)
  | .error _ => (f, true)

/-- One iteration of the debounced `featureManager.handleRouteChange`
body (content.js lines 629–655), with its `try`/`catch`: detach a module
whose predicate turned false (when it has `detach`), initialize one whose
predicate holds and which is not yet initialized. -/
def fmEvalRouteOne (f : FMModule) : FMModule × Bool :=
  let body : Except Unit FMModule :=
    if f.hasShouldInit && !f.shouldInit then
      if f.hasDetach then moduleDetachOp f else .ok f
    else if f.hasShouldInit && f.shouldInit then
      if f.isInitialized.getD false then .ok f else moduleInitOp f
    else .ok f
  match body with
  | .ok f' => (f', false)
  | .error _ => (f, true)

/-- `featureManager.init`'s `forEach` over the registered module list. -/
def fmInitRun : List FMModule → List (FMModule × Bool)
  | [] => []
  | f :: fs => fmEvalInitOne f :: fmInitRun fs

/-- `featureManager.handleRouteChange`'s `forEach` over the registered
module list (the body of the debounced timeout). -/
def fmRouteChangeRun : List FMModule → List (FMModule × Bool)
  | [] => []
  | f :: fs => fmEvalRouteOne f :: fmRouteChangeRun fs

/-! ## Concrete sample values used by witnesses and counterexamples -/

/-- A native checkbox input with the given `checked` state. -/
def mkNativeCb (b : Bool) : Checkbox :=
  { isSpan := false, ariaChecked := none, clsChecked := false,
    clsNgNotEmpty := false, clsNgEmpty := true, checked := b,
    hasNgModel := false, hasParentContainer := false, hasHiddenInput := false,
    ngClickHasRowHandler := false }

/-- A visible grid row identified by a `data-uid` attribute, holding a
native checkbox with the given state. -/
def mkRow (uid : String) (b : Bool) : Row :=
  { dataUid := some uid, dataKendoUid := none, id := none, dataRowIndex := none,
    textContent := "", visible := true, isGridRow := true, isKendoRow := false,
    checkbox := some (mkNativeCb b) }

/-- A custom `span[role=checkbox]` widget in the unchecked state
(`aria-checked="false"`). -/
def spanCbUnchecked : Checkbox :=
  { isSpan := true, ariaChecked := some "false", clsChecked := false,
    clsNgNotEmpty := false, clsNgEmpty := true, checked := false,
    hasNgModel := false, hasParentContainer := false, hasHiddenInput := false,
    ngClickHasRowHandler := false }

/-- A custom `span[role=checkbox]` widget in the checked state. -/
def spanCbChecked : Checkbox :=
  { spanCbUnchecked with ariaChecked := some "true", clsChecked := true,
                         clsNgNotEmpty := true, clsNgEmpty := false }

/-- A fully attached `rowClickSelectFeature` state sitting on the Matters
list page. -/
def rcsAttached : RCSState :=
  { listenerInstalled := true, routeObserverInstalled := true,
    tableBodySet := true, currentPath := "https://app.clio.com/nc/#/matters",
    isInitialized := true, anchor := some (mkRow "a" false) }

/-! ## C6 — attach idempotence -/

/-- C6: `attachDelegatedListener` tears its previously installed delegated
click listener down before installing a new one, so calling attach twice
in a row leaves exactly one registered listener and one simulated click
invokes the handler exactly once. -/
theorem attachDelegated_idempotent (s : DelegatedListeners) (t₁ t₂ : Nat)
    (h : listenerInv s) :
    (attachDelegated s t₁).installed = [t₁] ∧
    (attachDelegated (attachDelegated s t₁) t₂).installed = [t₂] ∧
    handlerInvocationsPerClick (attachDelegated (attachDelegated s t₁) t₂) = 1 ∧
    listenerInv (attachDelegated (attachDelegated s t₁) t₂) := by
  unfold listenerInv at h
  cases hs : s.stored with
  | none =>
    rw [hs] at h
    simp [attachDelegated, hs, h, handlerInvocationsPerClick, listenerInv]
  | some u =>
    rw [hs] at h
    simp [attachDelegated, hs, h, handlerInvocationsPerClick, listenerInv]

/-- C6 witness: the idempotence theorem applied to a module that already
owns listener `5`. -/
theorem attachDelegated_idempotent_witness :
    listenerInv ⟨[5], some 5⟩ ∧
    (attachDelegated (attachDelegated ⟨[5], some 5⟩ 6) 7).installed = [7] := by
  exact ⟨rfl, (attachDelegated_idempotent ⟨[5], some 5⟩ 6 7 rfl).2.1⟩

/-! ## C7 — navigation teardown -/

/-- C7 counterexample: navigating from the supported Matters page to an
unsupported URL runs `detach`, but the route/mutation observer is
deliberately kept installed (content.js lines 1444–1445), so the module
is not left with zero observers as the claim states. -/
theorem routeObserver_survives_navigation_away :
    shouldInitializeRCS "https://app.clio.com/nc/#/matters" = true ∧
    shouldInitializeRCS "https://app.clio.com/settings/profile" = false ∧
    (handleRouteChangeRCS rcsAttached
      "https://app.clio.com/settings/profile").routeObserverInstalled = true := by
  decide

/-- C7 (amended): after a URL change away from a supported page type the
module's delegated click listener is removed, its anchor is cleared and
its init flag reset, but the route/mutation observer is intentionally
retained (it is only removed by `cleanupRouteObserver`, e.g. when the
extension is disabled). -/
theorem navigation_teardown_scope (s : RCSState) (href : String)
    (h : shouldInitializeRCS href = false) :
    (handleRouteChangeRCS s href).listenerInstalled = false ∧
    (handleRouteChangeRCS s href).anchor = none ∧
    (handleRouteChangeRCS s href).isInitialized = false ∧
    (handleRouteChangeRCS s href).routeObserverInstalled
      = s.routeObserverInstalled := by
  simp [handleRouteChangeRCS, h, detachRCS]

/-- C7 witness: the amended teardown theorem applied to the attached
state and a settings URL. -/
theorem navigation_teardown_scope_witness :
    shouldInitializeRCS "https://app.clio.com/settings/profile" = false ∧
    (handleRouteChangeRCS rcsAttached
      "https://app.clio.com/settings/profile").anchor = none := by
  exact ⟨by decide,
    (navigation_teardown_scope rcsAttached _ (by decide)).2.1⟩

/-! ## C10 — feature-manager failure isolation -/

/-- C10: both `featureManager.init` and the debounced route-change
re-evaluation process the registered module list pointwise — each
module's outcome is `fmEvalInitOne`/`fmEvalRouteOne` of that module
alone, with a thrown `initialize`/`detach` caught and logged inside the
iteration — so every module is evaluated (the result list has an entry
per module) no matter which sibling throws. -/
theorem featureManager_failure_isolation (fs : List FMModule) :
    fmInitRun fs = fs.map fmEvalInitOne ∧
    fmRouteChangeRun fs = fs.map fmEvalRouteOne ∧
    (fmInitRun fs).length = fs.length ∧
    (fmRouteChangeRun fs).length = fs.length := by
  have h1 : fmInitRun fs = fs.map fmEvalInitOne := by
    induction fs with
    | nil => rfl
    | cons f fs ih => simp [fmInitRun, ih]
  have h2 : fmRouteChangeRun fs = fs.map fmEvalRouteOne := by
    clear h1
    induction fs with
    | nil => rfl
    | cons f fs ih => simp [fmRouteChangeRun, ih]
  exact ⟨h1, h2, by simp [h1], by simp [h2]⟩

/-! ## C8 — disabled-state teardown -/

/-- C8: toggling `linqly_enabled` to `false` fully detaches every
registered module regardless of the current page — the row-click module
loses its click listener, its route observer (via the extra
`cleanupRouteObserver` call) and its anchor; the deselect module loses
both document listeners; the new-bills module loses its table and
document listeners and its observer — and toggling it back to `true` is
exactly `featureManager.init()`, the first-load path.  The hypotheses are
the modules' own invariants: listeners are only held while initialized,
and a held table listener means the table it was attached to is still in
the document. -/
theorem disable_detaches_all_modules (env : Env) (s : SysState)
    (hcd : s.cd.isInitialized = false →
      s.cd.clickListener = false ∧ s.cd.keydownListener = false)
    (hnb : s.nb.isInitialized = false →
      s.nb.tableListener = false ∧ s.nb.keydownListener = false ∧
      s.nb.clickListener = false ∧ s.nb.observerInstalled = false)
    (htable : s.nb.tableListener = true → env.treePresent = true) :
    (applyEnabledState env false s).rcs.listenerInstalled = false ∧
    (applyEnabledState env false s).rcs.routeObserverInstalled = false ∧
    (applyEnabledState env false s).rcs.anchor = none ∧
    (applyEnabledState env false s).cd.clickListener = false ∧
    (applyEnabledState env false s).cd.keydownListener = false ∧
    (applyEnabledState env false s).nb.tableListener = false ∧
    (applyEnabledState env false s).nb.keydownListener = false ∧
    (applyEnabledState env false s).nb.clickListener = false ∧
    (applyEnabledState env false s).nb.observerInstalled = false ∧
    applyEnabledState env true s = featureManagerInit env s := by
  refine ⟨?_, ?_, ?_, ?_, ?_, ?_, ?_, ?_, ?_, ?_⟩
  · simp [applyEnabledState, cleanupRouteObserverRCS, detachRCS]
  · simp [applyEnabledState, cleanupRouteObserverRCS, detachRCS]
  · simp [applyEnabledState, cleanupRouteObserverRCS, detachRCS]
  · cases hinit : s.cd.isInitialized with
    | false => simpa [applyEnabledState, cdDetach, hinit] using (hcd hinit).1
    | true => simp [applyEnabledState, cdDetach, hinit]
  · cases hinit : s.cd.isInitialized with
    | false => simpa [applyEnabledState, cdDetach, hinit] using (hcd hinit).2
    | true => simp [applyEnabledState, cdDetach, hinit]
  · cases hinit : s.nb.isInitialized with
    | false => simpa [applyEnabledState, nbDetach, hinit] using (hnb hinit).1
    | true =>
      cases htl : s.nb.tableListener with
      | false => simp [applyEnabledState, nbDetach, hinit, htl]
      | true => simp [applyEnabledState, nbDetach, hinit, htable htl]
  · cases hinit : s.nb.isInitialized with
    | false => simpa [applyEnabledState, nbDetach, hinit] using (hnb hinit).2.1
    | true => simp [applyEnabledState, nbDetach, hinit]
  · cases hinit : s.nb.isInitialized with
    | false => simpa [applyEnabledState, nbDetach, hinit] using (hnb hinit).2.2.1
    | true => simp [applyEnabledState, nbDetach, hinit]
  · cases hinit : s.nb.isInitialized with
    | false => simpa [applyEnabledState, nbDetach, hinit] using (hnb hinit).2.2.2
    | true => simp [applyEnabledState, nbDetach, hinit]
  · simp [applyEnabledState]

/-- C8 witness: the disabled-state theorem applied to a fully attached
system on the Matters page with both containers present. -/
theorem disable_detaches_all_modules_witness :
    (applyEnabledState ⟨"https://app.clio.com/nc/#/matters", true, true⟩ false
      ⟨rcsAttached, ⟨true, true, true⟩, ⟨true, true, true, true, true⟩⟩).rcs.routeObserverInstalled = false := by
  exact (disable_detaches_all_modules
    ⟨"https://app.clio.com/nc/#/matters", true, true⟩
    ⟨rcsAttached, ⟨true, true, true⟩, ⟨true, true, true, true, true⟩⟩
    (by decide) (by decide) (by decide)).2.1

/-! ## C4 — stable row identity resolver -/

/-- Modelled from the spec: the claimed priority chain of `identify` /
`getRowUid` read literally — "returns the row's data-uid attribute if
present, otherwise data-kendo-uid, otherwise id, otherwise
data-row-index, otherwise the first 50 characters of the row's trimmed
text content" — with "present" meaning the attribute exists (a present
but empty attribute is still present).  For refinement comparison with
`getRowUid`. -/
def getRowUidClaimedSpec (r : Row) : String :=
  match r.dataUid with
  | some s => s
  | none =>
    match r.dataKendoUid with
    | some s => s
    | none =>
      match r.id with
      | some s => s
      | none =>
        match r.dataRowIndex with
        | some s => s
        | none => r.textContent.trim.take 50

/-- A row whose `data-uid` attribute is present but empty. -/
def rowEmptyDataUid : Row :=
  { dataUid := some "", dataKendoUid := some "K", id := none,
    dataRowIndex := none, textContent := "some text", visible := true,
    isGridRow := true, isKendoRow := false, checkbox := none }

/-- C4 counterexample: on a row whose `data-uid` is present but empty the
code falls through to `data-kendo-uid` (JS `||` treats the empty string
as falsy), while the claimed priority chain ("data-uid if present")
returns the empty string — so `getRowUid` does not implement the claim as
stated. -/
theorem getRowUid_empty_attribute_fallthrough :
    rowEmptyDataUid.dataUid = some "" ∧
    getRowUid rowEmptyDataUid = "K" ∧
    getRowUidClaimedSpec rowEmptyDataUid = "" ∧
    getRowUid rowEmptyDataUid ≠ getRowUidClaimedSpec rowEmptyDataUid := by
  refine ⟨rfl, rfl, rfl, by decide⟩

/-- C4 (amended): `getRowUid` is a pure total function implementing the
priority chain with "present" strengthened to "present and non-empty":
it returns `data-uid` when that attribute exists and is non-empty,
otherwise `data-kendo-uid` under the same proviso, otherwise `id`,
otherwise `data-row-index`, otherwise the first 50 characters of the
trimmed text content.  (Totality — "never throws", e.g. on a removed
row — is inherent: the function is defined on every `Row` value.) -/
theorem getRowUid_priority_chain (r : Row) :
    (∀ s, r.dataUid = some s → s ≠ "" → getRowUid r = s) ∧
    ((r.dataUid = none ∨ r.dataUid = some "") →
      (∀ s, r.dataKendoUid = some s → s ≠ "" → getRowUid r = s) ∧
      ((r.dataKendoUid = none ∨ r.dataKendoUid = some "") →
        (∀ s, r.id = some s → s ≠ "" → getRowUid r = s) ∧
        ((r.id = none ∨ r.id = some "") →
          (∀ s, r.dataRowIndex = some s → s ≠ "" → getRowUid r = s) ∧
          ((r.dataRowIndex = none ∨ r.dataRowIndex = some "") →
            getRowUid r = r.textContent.trim.take 50)))) := by
  refine ⟨?_, fun h1 => ⟨?_, fun h2 => ⟨?_, fun h3 => ⟨?_, fun h4 => ?_⟩⟩⟩⟩
  · intro s hs hne; simp [getRowUid, jsOrAttr, hs, hne]
  · intro s hs hne
    rcases h1 with h1 | h1 <;> simp [getRowUid, jsOrAttr, h1, hs, hne]
  · intro s hs hne
    rcases h1 with h1 | h1 <;> rcases h2 with h2 | h2 <;>
      simp [getRowUid, jsOrAttr, h1, h2, hs, hne]
  · intro s hs hne
    rcases h1 with h1 | h1 <;> rcases h2 with h2 | h2 <;>
      rcases h3 with h3 | h3 <;>
      simp [getRowUid, jsOrAttr, h1, h2, h3, hs, hne]
  · rcases h1 with h1 | h1 <;> rcases h2 with h2 | h2 <;>
      rcases h3 with h3 | h3 <;> rcases h4 with h4 | h4 <;>
      simp [getRowUid, jsOrAttr, h1, h2, h3, h4]

/-- C4 witness: the priority-chain theorem applied to the concrete row
with an empty `data-uid`, yielding the `data-kendo-uid` fallback. -/
theorem getRowUid_priority_chain_witness :
    getRowUid rowEmptyDataUid = "K" := by
  exact ((getRowUid_priority_chain rowEmptyDataUid).2 (Or.inr rfl)).1 "K" rfl
    (by decide)

/-! ## C5 — `setState` no-op guard -/

/-- C5 counterexample: both cited implementations violate the claimed
guard on custom `span[role=checkbox]` widgets.  content.js's
`setCheckboxState` has no equal-state guard at all for custom spans — an
unchecked span driven to `false` (current state = desired state) is still
rewritten and a full notification sequence dispatched; and
`LinqlyUtils.setCheckboxState` does nothing for a checked span driven to
`true`, i.e. the claimed desired=`true` re-assert does not happen there. -/
theorem setCheckboxState_custom_equal_state_not_noop :
    getCheckboxState spanCbUnchecked = false ∧
    (setCheckboxState spanCbUnchecked false false false).2 ≠ [] ∧
    Act.dispatchClickEvent ∈ (setCheckboxState spanCbUnchecked false false false).2 ∧
    Act.setAriaChecked false ∈ (setCheckboxState spanCbUnchecked false false false).2 ∧
    getCheckboxState spanCbChecked = true ∧
    setCheckboxStateUtils spanCbChecked true false "matters" = (spanCbChecked, []) := by
  refine ⟨rfl, by decide, by decide, by decide, rfl, rfl⟩

/-- C5 (amended): the no-op-when-equal guard, with its desired=`true`
re-assert exception, governs native checkbox inputs in both
implementations: on equal state with desired=`false` nothing is written
and nothing dispatched; on equal state with desired=`true` the control is
still re-driven with the full notification sequence.  Custom
`span[role=checkbox]` widgets follow neither rule:
`LinqlyUtils.setCheckboxState` is an unconditional no-op whenever the
state already matches (even for desired=`true` during range selection),
while content.js's `setCheckboxState` unconditionally re-drives the
widget and dispatches its events regardless of the current state. -/
theorem setCheckboxState_noop_guard (cb : Checkbox) (b rk m : Bool)
    (pt : String) :
    (cb.isSpan = false → getCheckboxState cb = b → b = false →
      setCheckboxState cb b rk m = (cb, []) ∧
      setCheckboxStateUtils cb b rk pt = (cb, [])) ∧
    (cb.isSpan = false → getCheckboxState cb = b → b = true →
      setCheckboxState cb b rk m =
        (applyCheckboxState cb b, nativeProceedActions cb b rk m) ∧
      setCheckboxStateUtils cb b rk pt =
        (applyCheckboxState cb b, nativeProceedActions cb b rk (pt == "matters"))) ∧
    (cb.isSpan = true → getCheckboxState cb = b →
      setCheckboxStateUtils cb b rk pt = (cb, [])) ∧
    (cb.isSpan = true →
      setCheckboxState cb b rk m = (applyCheckboxState cb b, spanDriveActions cb b) ∧
      (setCheckboxState cb b rk m).2 ≠ []) := by
  refine ⟨?_, ?_, ?_, ?_⟩
  · intro hs hg hb
    subst hb
    simp [setCheckboxState, setCheckboxStateUtils, hs, hg]
  · intro hs hg hb
    subst hb
    simp [setCheckboxState, setCheckboxStateUtils, hs, hg]
  · intro hs hg
    simp [setCheckboxStateUtils, hs, hg]
  · intro hs
    constructor
    · simp [setCheckboxState, hs]
    · simp [setCheckboxState, hs, spanDriveActions]

/-- C5 witness: the guard theorem applied to a native unchecked checkbox
driven to `false` (a strict no-op) — concrete inputs discharging every
hypothesis. -/
theorem setCheckboxState_noop_guard_witness :
    getCheckboxState (mkNativeCb false) = false ∧
    setCheckboxState (mkNativeCb false) false false false = (mkNativeCb false, []) := by
  exact ⟨rfl,
    ((setCheckboxState_noop_guard (mkNativeCb false) false false false "x").1
      rfl rfl rfl).1⟩

/-! ## C2 — abort on absent anchor/target identity -/

/-- The uid list the range branch works over: visible grid rows of the
`tbody`, in DOM order, mapped through `getRowUid` (Steps A–B of the
shift-click branch). -/
def visibleRowUids (g : List Row) : List String :=
  ((g.filter (fun r => r.isGridRow)).filter (fun r => r.visible)).map getRowUid

/-- `findIdx?` on a `==`-test misses exactly when the key is absent. -/
theorem findIdxQ_beq_eq_none {u : String} {l : List String} (h : u ∉ l) :
    l.findIdx? (· == u) = none := by
  rw [List.findIdx?_eq_none_iff]
  intro x hx
  exact beq_eq_false_iff_ne.mpr (fun e => h (e ▸ hx))

/-- C2: a shift-click performed while an anchor exists aborts without any
mutation when the anchor's or the target's `RowIdentity` is absent from
the visible-row uid list (`startIndex === -1 || endIndex === -1`): the
grid is returned untouched — no checkbox driven, existing selections
kept — and the anchor is unchanged. -/
theorem shiftClick_absent_identity_no_mutation (g : List Row) (a : Row)
    (tIdx : Nat) (m : Bool)
    (habs : ∀ trow, g[tIdx]? = some trow →
      getRowUid a ∉ visibleRowUids g ∨ getRowUid trow ∉ visibleRowUids g) :
    handleClickContent g (some a) true tIdx m = (g, some a) := by
  cases hrow : g[tIdx]? with
  | none => simp [handleClickContent, hrow]
  | some row =>
    cases hcb : row.checkbox with
    | none => simp [handleClickContent, hrow, hcb]
    | some cb =>
      have hg : handleClickContent g (some a) true tIdx m =
          (shiftClickContent g a row m, some a) := by
        simp [handleClickContent, hrow, hcb]
      rw [hg]
      suffices h : shiftClickContent g a row m = g by rw [h]
      rcases habs row hrow with h | h
      · have h0 := findIdxQ_beq_eq_none (u := getRowUid a)
          (l := visibleRowUids g) h
        unfold visibleRowUids at h0
        unfold shiftClickContent
        simp only [h0]
      · have h0 := findIdxQ_beq_eq_none (u := getRowUid row)
          (l := visibleRowUids g) h
        unfold visibleRowUids at h0
        unfold shiftClickContent
        simp only [h0]
        split <;> first | rfl | contradiction

/-- C2 witness: the abort theorem applied to a one-row grid and an anchor
whose identity is not among the visible rows. -/
theorem shiftClick_absent_identity_witness :
    getRowUid (mkRow "zzz" false) ∉ visibleRowUids [mkRow "b" false] ∧
    handleClickContent [mkRow "b" false] (some (mkRow "zzz" false)) true 0 false
      = ([mkRow "b" false], some (mkRow "zzz" false)) := by
  refine ⟨by decide, ?_⟩
  exact shiftClick_absent_identity_no_mutation [mkRow "b" false]
    (mkRow "zzz" false) 0 false
    (fun trow h => by
      simp only [List.getElem?_cons_zero, Option.some.injEq] at h
      subst h
      left
      decide)

/-! ## C3 — anchor lifecycle -/

/-- C3 counterexample: a shift-click performed while no anchor exists
falls into the normal-click branch (`event.shiftKey && this.lastClickedRow`
is false) and sets the anchor to the clicked row — so the anchor is not
"never advanced by a shift-click". -/
theorem anchor_set_by_anchorless_shiftClick :
    (handleClickContent [mkRow "a" false] none true 0 false).2 ≠ none ∧
    (handleClickContent [mkRow "a" false] none true 0 false).2
      = some (plainClickRow (mkRow "a" false) false) := by
  refine ⟨by decide, rfl⟩

/-- C3 (amended): the anchor is set to the clicked row by every plain
click whose row has a recognisable checkbox (a plain click on a row
without one returns before touching the anchor); a shift-click performed
while an anchor exists never advances it; a shift-click with no anchor
behaves as a plain click and does set the anchor; and `detach` clears it. -/
theorem anchor_lifecycle (g : List Row) (a r : Row) (anc : Option Row)
    (i : Nat) (m : Bool) (s : RCSState) :
    (g[i]? = some r → r.checkbox.isSome = true →
      (handleClickContent g anc false i m).2 = some (plainClickRow r m) ∧
      getRowUid (plainClickRow r m) = getRowUid r) ∧
    (g[i]? = some r → r.checkbox = none →
      (handleClickContent g anc false i m).2 = anc) ∧
    (handleClickContent g (some a) true i m).2 = some a ∧
    (g[i]? = some r → r.checkbox.isSome = true →
      (handleClickContent g none true i m).2 = some (plainClickRow r m)) ∧
    (detachRCS s).anchor = none := by
  refine ⟨?_, ?_, ?_, ?_, rfl⟩
  · intro hrow hcb
    cases hc : r.checkbox with
    | none => rw [hc] at hcb; simp at hcb
    | some cb =>
      constructor
      · simp [handleClickContent, hrow, hc]
      · cases r
        simp [plainClickRow, getRowUid]
        split <;> rfl
  · intro hrow hcb
    simp [handleClickContent, hrow, hcb]
  · cases hrow : g[i]? with
    | none => simp [handleClickContent, hrow]
    | some row =>
      cases hc : row.checkbox with
      | none => simp [handleClickContent, hrow, hc]
      | some cb => simp [handleClickContent, hrow, hc]
  · intro hrow hcb
    cases hc : r.checkbox with
    | none => rw [hc] at hcb; simp at hcb
    | some cb => simp [handleClickContent, hrow, hc]

/-- C3 witness: the lifecycle theorem applied to a concrete one-row grid
(plain click sets the anchor to the clicked row). -/
theorem anchor_lifecycle_witness :
    (handleClickContent [mkRow "a" false] none false 0 false).2
      = some (plainClickRow (mkRow "a" false) false) := by
  exact ((anchor_lifecycle [mkRow "a" false] (mkRow "a" false) (mkRow "a" false)
    none 0 false rcsAttached).1 rfl rfl).1

/-! ## C9 — tree-structured range selection on the new-bills page -/

/-- Pointwise characterisation of the new-bills range loop: the entry at
position `k` (loop counter starting at `i₀`) is selected exactly when its
absolute index lies in `[lo, hi]` and it passes the child-row filter. -/
theorem nbRangeLoop_getElem (lo hi : Nat) (onlySub : Bool) :
    ∀ (rows : List NBRow) (i₀ k : Nat) (r : NBRow), rows[k]? = some r →
      (nbRangeLoop lo hi onlySub i₀ rows)[k]? =
        some (if lo ≤ i₀ + k ∧ i₀ + k ≤ hi ∧ (onlySub → r.isSubitem = true)
              then selectCheckbox r else r) := by
  intro rows
  induction rows with
  | nil => intro i₀ k r h; simp at h
  | cons x xs ih =>
    intro i₀ k r h
    cases k with
    | zero =>
      simp only [List.getElem?_cons_zero, Option.some.injEq] at h
      subst h
      simp [nbRangeLoop]
    | succ k' =>
      simp only [List.getElem?_cons_succ] at h
      have := ih (i₀ + 1) k' r h
      simpa [nbRangeLoop, Nat.add_assoc, Nat.add_comm 1 k'] using this

/-- On rows that carry a checkbox, selecting means driving `checked` to
`true` (idempotently). -/
theorem selectCheckbox_eq_setTrue (r : NBRow) (h : r.hasCheckbox = true) :
    selectCheckbox r = { r with checked := true } := by
  cases r with
  | mk isItem isSubitem hasCheckbox checked =>
    cases checked <;> simp_all [selectCheckbox]

/-- C9: on the new-bills tree page, a shift-click with anchor index `a`
and target index `t` (both rows live in the current row list, every row
carrying a checkbox) drives exactly the rows whose index lies inclusively
between `a` and `t` to checked — restricted to child rows
(`cc-tree-view-subitem`) when both the anchor row and the target row are
child rows, so interleaved parent rows are skipped; when the anchor or
the target is a parent row every row in the range is selected.  Rows
outside the range are untouched and the anchor is preserved. -/
theorem newBills_tree_range_selection (rows : List NBRow) (a t : Nat)
    (arow trow : NBRow)
    (ha : rows[a]? = some arow) (ht : rows[t]? = some trow)
    (hcb : ∀ r ∈ rows, r.hasCheckbox = true) :
    (∀ k r, rows[k]? = some r →
      (nbHandleTableClick rows (some a) true t).1[k]? =
        some (if min a t ≤ k ∧ k ≤ max a t ∧
                 ((arow.isSubitem && trow.isSubitem) = true → r.isSubitem = true)
              then { r with checked := true } else r)) ∧
    (nbHandleTableClick rows (some a) true t).2 = some a := by
  have htc : trow.hasCheckbox = true := by
    apply hcb
    exact List.getElem?_mem ht
  have hres : nbHandleTableClick rows (some a) true t =
      (nbRangeLoop (min a t) (max a t) (arow.isSubitem && trow.isSubitem) 0 rows,
       some a) := by
    simp [nbHandleTableClick, ht, htc, ha]
  rw [hres]
  refine ⟨?_, rfl⟩
  intro k r hk
  have := nbRangeLoop_getElem (min a t) (max a t)
    (arow.isSubitem && trow.isSubitem) rows 0 k r hk
  rw [this]
  have hrc : r.hasCheckbox = true := hcb r (List.getElem?_mem hk)
  by_cases hcond : min a t ≤ k ∧ k ≤ max a t ∧
      ((arow.isSubitem && trow.isSubitem) = true → r.isSubitem = true)
  · simp only [Nat.zero_add] at *
    rw [if_pos hcond, if_pos hcond, selectCheckbox_eq_setTrue r hrc]
  · simp only [Nat.zero_add] at *
    rw [if_neg hcond, if_neg hcond]

/-- An unchecked parent (client) row of the new-bills tree. -/
def nbParent : NBRow :=
  { isItem := true, isSubitem := false, hasCheckbox := true, checked := false }

/-- An unchecked child (matter) row of the new-bills tree. -/
def nbChild : NBRow :=
  { isItem := false, isSubitem := true, hasCheckbox := true, checked := false }

/-- C9 witness: the tree-range theorem applied to a concrete
parent/child/child/parent/child list with a child anchor at index 1 and a
child target at index 4 (the interleaved parent at index 3 is skipped, the
anchor is preserved). -/
theorem newBills_tree_range_selection_witness :
    (nbHandleTableClick [nbParent, nbChild, nbChild, nbParent, nbChild]
      (some 1) true 4).2 = some 1 ∧
    (nbHandleTableClick [nbParent, nbChild, nbChild, nbParent, nbChild]
      (some 1) true 4).1[3]? = some nbParent := by
  have h := newBills_tree_range_selection
    [nbParent, nbChild, nbChild, nbParent, nbChild] 1 4 nbChild nbChild
    rfl rfl (by decide)
  refine ⟨h.2, ?_⟩
  have h3 := h.1 3 nbParent rfl
  rw [h3]
  norm_num [nbParent, nbChild]

/-! ## C1 — range correctness

Infrastructure: driving a row's checkbox changes nothing the identity
resolver, the visibility filter or the attribute lookup read, and a grid
whose visible rows have distinct, attribute-coherent identities keeps
those properties under driving. -/

/-- Driving to `true` always lands the adapter in `applyCheckboxState`. -/
theorem setCheckboxState_true_fst (cb : Checkbox) (rk m : Bool) :
    (setCheckboxState cb true rk m).1 = applyCheckboxState cb true := by
  cases hs : cb.isSpan <;> simp [setCheckboxState, hs]

/-- A control driven to `true` reads back as selected. -/
theorem getCheckboxState_applyTrue (cb : Checkbox) :
    getCheckboxState (applyCheckboxState cb true) = true := by
  cases hs : cb.isSpan <;> simp [applyCheckboxState, getCheckboxState, hs]

/-- Re-driving an already driven control is a fixpoint of the eventual
state. -/
theorem applyCheckboxState_true_idem (cb : Checkbox) :
    applyCheckboxState (applyCheckboxState cb true) true
      = applyCheckboxState cb true := by
  cases hs : cb.isSpan <;> simp [applyCheckboxState, hs]

/-- `driveRowContent` only rewrites the checkbox: every field read by
`getRowUid`, the row selectors and the attribute lookup is unchanged. -/
theorem driveRowContent_fields (r : Row) (m : Bool) :
    (driveRowContent r m).dataUid = r.dataUid ∧
    (driveRowContent r m).dataKendoUid = r.dataKendoUid ∧
    (driveRowContent r m).id = r.id ∧
    (driveRowContent r m).dataRowIndex = r.dataRowIndex ∧
    (driveRowContent r m).textContent = r.textContent ∧
    (driveRowContent r m).visible = r.visible ∧
    (driveRowContent r m).isGridRow = r.isGridRow ∧
    (driveRowContent r m).checkbox.isSome = r.checkbox.isSome := by
  cases hc : r.checkbox <;> simp [driveRowContent, hc]

/-- Driving preserves the row's identity. -/
theorem getRowUid_driveRowContent (r : Row) (m : Bool) :
    getRowUid (driveRowContent r m) = getRowUid r := by
  cases hc : r.checkbox <;> simp [driveRowContent, hc, getRowUid]

/-- Driving preserves the attribute-selector matches. -/
theorem attrMatches_driveRowContent (u : String) (r : Row) (m : Bool) :
    attrMatches u (driveRowContent r m) = attrMatches u r := by
  cases hc : r.checkbox <;> simp [driveRowContent, hc, attrMatches]

/-- Driving preserves attribute coherence. -/
theorem attrCoherent_driveRowContent (r : Row) (m : Bool) :
    attrCoherent (driveRowContent r m) = attrCoherent r := by
  cases hc : r.checkbox <;> simp [driveRowContent, hc, attrCoherent, getRowUid]

/-- A driven row with a checkbox reads back as selected. -/
theorem rowSelected_driveRowContent (r : Row) (m : Bool)
    (h : r.checkbox.isSome = true) :
    rowSelected (driveRowContent r m) = true := by
  cases hc : r.checkbox with
  | none => rw [hc] at h; simp at h
  | some cb =>
    simp [driveRowContent, hc, rowSelected, setCheckboxState_true_fst,
      getCheckboxState_applyTrue]

/-- Driving twice equals driving once (the eventual state is a fixpoint). -/
theorem driveRowContent_idem (r : Row) (m : Bool) :
    driveRowContent (driveRowContent r m) m = driveRowContent r m := by
  cases hc : r.checkbox with
  | none => simp [driveRowContent, hc]
  | some cb =>
    simp [driveRowContent, hc, setCheckboxState_true_fst,
      applyCheckboxState_true_idem]

/-- A plain click on an unselected row with a checkbox drives it to the
selected state: the toggle computes `newState = true`. -/
theorem plainClickRow_of_unselected (r : Row) (m : Bool)
    (hsel : rowSelected r = false) (hcb : r.checkbox.isSome = true) :
    plainClickRow r m = driveRowContent r m := by
  cases hc : r.checkbox with
  | none => rw [hc] at hcb; simp at hcb
  | some cb =>
    have : getCheckboxState cb = false := by
      simpa [rowSelected, hc] using hsel
    simp [plainClickRow, driveRowContent, hc, this]

/-- The well-formedness the range algorithm needs: every `tbody` row is a
visible grid row carrying a checkbox, identities are pairwise distinct,
and identity attributes are coherent with the computed uid. -/
def GoodGrid (g : List Row) : Prop :=
  (g.map getRowUid).Nodup ∧
  ∀ r ∈ g, r.visible = true ∧ r.isGridRow = true ∧
    attrCoherent r = true ∧ r.checkbox.isSome = true

/-- Attribute coherence, pointwise: an attribute hit pins the uid. -/
theorem attrCoherent_spec {r : Row} (h : attrCoherent r = true) {u : String}
    (hm : attrMatches u r = true) : getRowUid r = u := by
  unfold attrCoherent at h
  unfold attrMatches at hm
  simp only [Bool.and_eq_true] at h
  simp only [Bool.or_eq_true, beq_iff_eq] at hm
  obtain ⟨⟨⟨h1, h2⟩, h3⟩, h4⟩ := h
  rcases hm with ((hm | hm) | hm) | hm
  · rw [hm] at h1; simpa using h1
  · rw [hm] at h2; simpa using h2
  · rw [hm] at h3; simpa using h3
  · rw [hm] at h4; simpa using h4

/-- `indexOf` on a duplicate-free list finds exactly the position the key
sits at. -/
theorem findIdxQ_some_of_getElem (l : List String) (u : String) :
    ∀ i, l.Nodup → l[i]? = some u → l.findIdx? (· == u) = some i := by
  induction l with
  | nil => intro i _ hi; simp at hi
  | cons x xs ih =>
    intro i hnd hi
    rcases List.nodup_cons.mp hnd with ⟨hx, hxs⟩
    cases i with
    | zero =>
      simp only [List.getElem?_cons_zero, Option.some.injEq] at hi
      subst hi
      simp [List.findIdx?_cons]
    | succ i' =>
      simp only [List.getElem?_cons_succ] at hi
      have hne : (x == u) = false := by
        refine beq_eq_false_iff_ne.mpr (fun e => hx ?_)
        rw [e]
        exact List.getElem?_mem hi
      simp [List.findIdx?_cons, hne, ih i' hxs hi]

/-- Positions in a duplicate-free list are determined by their value. -/
theorem nodup_getElemQ_inj {α} {l : List α} (hnd : l.Nodup) {i j : Nat}
    {x : α} (hi : l[i]? = some x) (hj : l[j]? = some x) : i = j := by
  obtain ⟨hilen, hie⟩ := List.getElem?_eq_some_iff.mp hi
  obtain ⟨hjlen, hje⟩ := List.getElem?_eq_some_iff.mp hj
  exact (List.Nodup.getElem_inj_iff hnd).mp (hie.trans hje.symm)

/-- A successful `findIdx?` points at an element satisfying the predicate. -/
theorem findIdxQ_some_spec {α} (p : α → Bool) :
    ∀ (l : List α) (j : Nat), l.findIdx? p = some j →
      ∃ y, l[j]? = some y ∧ p y = true := by
  intro l
  induction l with
  | nil => intro j h; simp at h
  | cons a l ih =>
    intro j h
    rw [List.findIdx?_cons] at h
    cases hp : p a with
    | true =>
      rw [hp, if_pos rfl] at h
      obtain rfl : j = 0 := by simpa using h.symm
      exact ⟨a, by simp, hp⟩
    | false =>
      rw [hp] at h
      simp only [Bool.false_eq_true, if_false, List.findIdx?_start_succ,
        Option.map_eq_some'] at h
      obtain ⟨j', hj', rfl⟩ := h
      obtain ⟨y, hy, hpy⟩ := ih j' hj'
      exact ⟨y, by simpa using hy, hpy⟩

/-- When the predicate holds at position `i` and at no other position,
`findIdx?` returns `i`. -/
theorem findIdxQ_eq_some_unique {α} (p : α → Bool) :
    ∀ (l : List α) (i : Nat) (x : α), l[i]? = some x → p x = true →
      (∀ j y, l[j]? = some y → p y = true → j = i) →
      l.findIdx? p = some i := by
  intro l
  induction l with
  | nil => intro i x hx _ _; simp at hx
  | cons a l ih =>
    intro i x hx hpx huniq
    cases hp : p a with
    | true =>
      have h0 : 0 = i := huniq 0 a (by simp) hp
      rw [← h0]
      simp [List.findIdx?_cons, hp]
    | false =>
      cases i with
      | zero =>
        simp only [List.getElem?_cons_zero, Option.some.injEq] at hx
        subst hx
        rw [hp] at hpx
        simp at hpx
      | succ i' =>
        simp only [List.getElem?_cons_succ] at hx
        have huniq' : ∀ j y, l[j]? = some y → p y = true → j = i' := by
          intro j y hj hy
          have := huniq (j + 1) y (by simpa using hj) hy
          omega
        have := ih i' x hx hpx huniq'
        simp [List.findIdx?_cons, hp, List.findIdx?_start_succ, this]

/-- Under the grid well-formedness, the live-row re-resolution of a uid
finds exactly the row carrying it: an attribute hit is pinned to the
right row by coherence and distinctness, and the text fallback finds it
by uid comparison. -/
theorem findLiveRowIdx_eq (g : List Row) (u : String) (i : Nat) (r : Row)
    (hg : GoodGrid g) (hi : g[i]? = some r) (hu : getRowUid r = u) :
    findLiveRowIdx g u = some i := by
  obtain ⟨hnd, hall⟩ := hg
  have hmapi : (g.map getRowUid)[i]? = some u := by
    rw [List.getElem?_map, hi]
    simp [hu]
  unfold findLiveRowIdx
  cases hattr : g.findIdx? (fun r => attrMatches u r) with
  | some j =>
    obtain ⟨y, hy, hpy⟩ := findIdxQ_some_spec _ g j hattr
    have hcy : attrCoherent y = true := (hall y (List.getElem?_mem hy)).2.2.1
    have huy : getRowUid y = u := attrCoherent_spec hcy hpy
    have hmapj : (g.map getRowUid)[j]? = some u := by
      rw [List.getElem?_map, hy]
      simp [huy]
    rw [nodup_getElemQ_inj hnd hmapj hmapi]
  | none =>
    apply findIdxQ_eq_some_unique _ g i r hi
    · have := (hall r (List.getElem?_mem hi)).2.1
      simp [this, hu]
    · intro j y hj hpy
      simp only [Bool.and_eq_true, beq_iff_eq] at hpy
      have hmapj : (g.map getRowUid)[j]? = some u := by
        rw [List.getElem?_map, hj]
        simp [hpy.2]
      exact nodup_getElemQ_inj hnd hmapj hmapi

/-- One range-loop iteration on a uid that lives at position `i`: the row
at `i` is driven in place. -/
theorem processRangeUid_eq (g : List Row) (u : String) (i : Nat) (r : Row)
    (m : Bool) (hg : GoodGrid g) (hi : g[i]? = some r)
    (hu : getRowUid r = u) :
    processRangeUid g u m = g.set i (driveRowContent r m) := by
  unfold processRangeUid driveRowAt
  simp only [findLiveRowIdx_eq g u i r hg hi hu, hi]

/-- Driving a row in place does not change the uid list. -/
theorem map_uid_set_drive (g : List Row) (i : Nat) (r : Row) (m : Bool)
    (hi : g[i]? = some r) :
    (g.set i (driveRowContent r m)).map getRowUid = g.map getRowUid := by
  have hilen : i < g.length := (List.getElem?_eq_some_iff.mp hi).1
  rw [List.map_set]
  apply List.ext_getElem?
  intro n
  by_cases hn : n = i
  · subst hn
    rw [List.getElem?_set_self (by simpa using hilen), List.getElem?_map, hi,
      getRowUid_driveRowContent]
    rfl
  · rw [List.getElem?_set_ne (fun e => hn e.symm)]

/-- Driving a row in place preserves the grid well-formedness. -/
theorem goodGrid_set_drive (g : List Row) (i : Nat) (r : Row) (m : Bool)
    (hg : GoodGrid g) (hi : g[i]? = some r) :
    GoodGrid (g.set i (driveRowContent r m)) := by
  obtain ⟨hnd, hall⟩ := hg
  constructor
  · rw [map_uid_set_drive g i r m hi]
    exact hnd
  · intro y hy
    rcases List.mem_or_eq_of_mem_set hy with hmem | rfl
    · exact hall y hmem
    · have h := hall r (List.getElem?_mem hi)
      obtain ⟨_, _, _, _, _, f6, f7, f8⟩ := driveRowContent_fields r m
      exact ⟨by rw [f6]; exact h.1, by rw [f7]; exact h.2.1,
        by rw [attrCoherent_driveRowContent]; exact h.2.2.1,
        by rw [f8]; exact h.2.2.2⟩

/-- Characterisation of the range loop (Step D of the shift-click
branch): folding the uid slice over the grid drives exactly the rows
whose uid lies in the slice and is neither the anchor uid (preserved) nor
the target uid (handled separately); well-formedness and the uid list are
preserved. -/
theorem rangeLoop_foldl_char (m : Bool) (sU eU : String) :
    ∀ (us : List String) (g : List Row), GoodGrid g → us.Nodup →
      (∀ u ∈ us, u ∈ g.map getRowUid) →
      GoodGrid (us.foldl (fun (acc : List Row) (u : String) => if u == sU || u == eU then acc
          else processRangeUid acc u m) g) ∧
      (us.foldl (fun (acc : List Row) (u : String) => if u == sU || u == eU then acc
          else processRangeUid acc u m) g).map getRowUid = g.map getRowUid ∧
      (∀ (k : Nat) (r : Row), g[k]? = some r →
        (us.foldl (fun (acc : List Row) (u : String) => if u == sU || u == eU then acc
            else processRangeUid acc u m) g)[k]? =
          some (if getRowUid r ∈ us ∧ getRowUid r ≠ sU ∧ getRowUid r ≠ eU
                then driveRowContent r m else r)) := by
  intro us
  induction us with
  | nil =>
    intro g hg _ _
    refine ⟨hg, rfl, ?_⟩
    intro k r hk
    rw [if_neg (by simp)]
    exact hk
  | cons u us ih =>
    intro g hg hnd hmem
    rcases List.nodup_cons.mp hnd with ⟨hu_not, hnd'⟩
    rw [List.foldl_cons]
    by_cases hskip : (u == sU || u == eU) = true
    · rw [if_pos hskip]
      obtain ⟨ih1, ih2, ih3⟩ := ih g hg hnd'
        (fun v hv => hmem v (List.mem_cons_of_mem _ hv))
      refine ⟨ih1, ih2, ?_⟩
      intro k r hk
      rw [ih3 k r hk]
      have hiff : (getRowUid r ∈ u :: us ∧ getRowUid r ≠ sU ∧ getRowUid r ≠ eU)
          ↔ (getRowUid r ∈ us ∧ getRowUid r ≠ sU ∧ getRowUid r ≠ eU) := by
        constructor
        · rintro ⟨hm, h1, h2⟩
          rcases List.mem_cons.mp hm with he | hm'
          · simp only [Bool.or_eq_true, beq_iff_eq] at hskip
            rcases hskip with h | h
            · exact absurd (he.trans h) h1
            · exact absurd (he.trans h) h2
          · exact ⟨hm', h1, h2⟩
        · rintro ⟨hm, h1, h2⟩
          exact ⟨List.mem_cons_of_mem _ hm, h1, h2⟩
      rw [if_congr hiff.symm rfl rfl]
    · have hbe : (u == sU || u == eU) = false := by
        simpa using hskip
      rw [if_neg (by simp [hbe])]
      simp only [Bool.or_eq_false_iff, beq_eq_false_iff_ne] at hbe
      have humem : u ∈ g.map getRowUid := hmem u (List.mem_cons_self u us)
      obtain ⟨i0, hmi⟩ := List.mem_iff_getElem?.mp humem
      obtain ⟨r0, hr0, hur0⟩ : ∃ r0, g[i0]? = some r0 ∧ getRowUid r0 = u := by
        rw [List.getElem?_map] at hmi
        cases hg0 : g[i0]? with
        | none => rw [hg0] at hmi; simp at hmi
        | some r0 =>
          rw [hg0] at hmi
          exact ⟨r0, rfl, by simpa using hmi⟩
      rw [processRangeUid_eq g u i0 r0 m hg hr0 hur0]
      have hgood' := goodGrid_set_drive g i0 r0 m hg hr0
      have hmap' := map_uid_set_drive g i0 r0 m hr0
      obtain ⟨ih1, ih2, ih3⟩ := ih (g.set i0 (driveRowContent r0 m)) hgood' hnd'
        (fun v hv => by rw [hmap']; exact hmem v (List.mem_cons_of_mem _ hv))
      refine ⟨ih1, by rw [ih2, hmap'], ?_⟩
      intro k r hk
      obtain ⟨hnd0, _⟩ := hg
      have hilen : i0 < g.length := (List.getElem?_eq_some_iff.mp hr0).1
      by_cases hki : k = i0
      · subst hki
        have hrr0 : r0 = r := by
          rw [hr0] at hk
          exact Option.some.inj hk
        subst hrr0
        have hgk' : (g.set k (driveRowContent r0 m))[k]? =
            some (driveRowContent r0 m) := List.getElem?_set_self hilen
        rw [ih3 k (driveRowContent r0 m) hgk']
        rw [if_neg (by
          rw [getRowUid_driveRowContent, hur0]
          exact fun hc => hu_not hc.1)]
        rw [if_pos ⟨by rw [hur0]; exact List.mem_cons_self u us,
          by rw [hur0]; exact hbe.1, by rw [hur0]; exact hbe.2⟩]
      · have hgk' : (g.set i0 (driveRowContent r0 m))[k]? = some r := by
          rw [List.getElem?_set_ne (fun e => hki e.symm)]
          exact hk
        rw [ih3 k r hgk']
        have hur : getRowUid r ≠ u := by
          intro he
          apply hki
          have h1 : (g.map getRowUid)[k]? = some u := by
            rw [List.getElem?_map, hk]
            simp [he]
          have h2 : (g.map getRowUid)[i0]? = some u := by
            rw [List.getElem?_map, hr0]
            simp [hur0]
          exact nodup_getElemQ_inj hnd0 h1 h2
        have hiff : (getRowUid r ∈ us ∧ getRowUid r ≠ sU ∧ getRowUid r ≠ eU)
            ↔ (getRowUid r ∈ u :: us ∧ getRowUid r ≠ sU ∧ getRowUid r ≠ eU) := by
          constructor
          · rintro ⟨hm, h1, h2⟩
            exact ⟨List.mem_cons_of_mem _ hm, h1, h2⟩
          · rintro ⟨hm, h1, h2⟩
            rcases List.mem_cons.mp hm with he | hm'
            · exact absurd he hur
            · exact ⟨hm', h1, h2⟩
        rw [if_congr hiff rfl rfl]

/-- The target-row special handling's attribute-only lookup finds exactly
the row at `j` when that row is attribute-locatable, by coherence and
distinctness. -/
theorem findIdx_attrMatches_eq (g : List Row) (u : String) (j : Nat)
    (rj : Row) (hg : GoodGrid g) (hj : g[j]? = some rj)
    (hattr : attrMatches u rj = true) :
    g.findIdx? (fun r => attrMatches u r) = some j := by
  obtain ⟨hnd, hall⟩ := hg
  have hcj : attrCoherent rj = true := (hall rj (List.getElem?_mem hj)).2.2.1
  have huj : getRowUid rj = u := attrCoherent_spec hcj hattr
  apply findIdxQ_eq_some_unique _ g j rj hj hattr
  intro j' y hy hpy
  have hcy := (hall y (List.getElem?_mem hy)).2.2.1
  have huy := attrCoherent_spec hcy hpy
  have h1 : (g.map getRowUid)[j']? = some u := by
    rw [List.getElem?_map, hy]
    simp [huy]
  have h2 : (g.map getRowUid)[j]? = some u := by
    rw [List.getElem?_map, hj]
    simp [huj]
  exact nodup_getElemQ_inj hnd h1 h2

/-- Membership of a duplicate-free list's value in a contiguous slice is
exactly an index-window condition on its (unique) position. -/
theorem mem_slice_iff (l : List String) (hnd : l.Nodup) (k : Nat)
    (u : String) (hk : l[k]? = some u) (lo n : Nat) :
    u ∈ (l.drop lo).take n ↔ (lo ≤ k ∧ k < lo + n) := by
  constructor
  · intro hmem
    obtain ⟨t, ht⟩ := List.mem_iff_getElem?.mp hmem
    have htn : t < n := by
      by_contra hge
      rw [List.getElem?_eq_none
        (le_trans (List.length_take_le _ _) (Nat.le_of_not_lt hge))] at ht
      exact Option.noConfusion ht
    rw [List.getElem?_take_of_lt htn, List.getElem?_drop] at ht
    have := nodup_getElemQ_inj hnd ht hk
    omega
  · rintro ⟨h1, h2⟩
    apply List.mem_iff_getElem?.mpr
    refine ⟨k - lo, ?_⟩
    rw [List.getElem?_take_of_lt (by omega), List.getElem?_drop,
      show lo + (k - lo) = k by omega]
    exact hk

/-- Under the grid well-formedness, the visibility filters of Step A keep
every row. -/
theorem filters_of_good (g : List Row) (hg : GoodGrid g) :
    (g.filter (fun r => r.isGridRow)).filter (fun r => r.visible) = g := by
  obtain ⟨_, hall⟩ := hg
  have h1 : g.filter (fun r => r.isGridRow) = g :=
    List.filter_eq_self.mpr (fun a ha => (hall a ha).2.1)
  rw [h1]
  exact List.filter_eq_self.mpr (fun a ha => (hall a ha).1)

/-- Full characterisation of the shift-click branch on a well-formed grid
whose anchor row sits at `i` and target row at `j` (the anchor and target
arguments may be stale element snapshots `ar`, `tr` as long as they carry
the same identities): every row of the inclusive index range is driven
except the anchor row, whose state is explicitly preserved, plus the
target row (driven by its special handling); rows outside are untouched. -/
theorem shiftClickContent_char (g : List Row) (i j : Nat)
    (ra rb ar tr : Row) (m : Bool)
    (hg : GoodGrid g) (hi : g[i]? = some ra) (hj : g[j]? = some rb)
    (har : getRowUid ar = getRowUid ra) (htr : getRowUid tr = getRowUid rb)
    (hattr : attrMatches (getRowUid rb) rb = true) :
    ∀ (k : Nat) (r : Row), g[k]? = some r →
      (shiftClickContent g ar tr m)[k]? =
        some (if (min i j ≤ k ∧ k ≤ max i j ∧ k ≠ i) ∨ k = j
              then driveRowContent r m else r) := by
  intro k r hk
  obtain ⟨hnd, hall⟩ := hg
  have hfilters := filters_of_good g ⟨hnd, hall⟩
  have hfi : (g.map getRowUid).findIdx? (· == getRowUid ra) = some i :=
    findIdxQ_some_of_getElem _ _ i (by simpa using hnd)
      (by rw [List.getElem?_map, hi]; rfl)
  have hfj : (g.map getRowUid).findIdx? (· == getRowUid rb) = some j :=
    findIdxQ_some_of_getElem _ _ j (by simpa using hnd)
      (by rw [List.getElem?_map, hj]; rfl)
  have hsub : List.Sublist
      (((g.map getRowUid).drop (min i j)).take (max i j + 1 - min i j))
      (g.map getRowUid) :=
    (List.take_sublist _ _).trans (List.drop_sublist _ _)
  obtain ⟨hg1, hmap1, hpt1⟩ := rangeLoop_foldl_char m (getRowUid ra)
    (getRowUid rb)
    (((g.map getRowUid).drop (min i j)).take (max i j + 1 - min i j)) g
    ⟨hnd, hall⟩ (hsub.nodup (by simpa using hnd))
    (fun u hu => hsub.subset hu)
  have hg1j : (((((g.map getRowUid).drop (min i j)).take
      (max i j + 1 - min i j))).foldl
      (fun (acc : List Row) (u : String) =>
        if u == getRowUid ra || u == getRowUid rb then acc
        else processRangeUid acc u m) g)[j]? = some rb := by
    rw [hpt1 j rb hj, if_neg (fun hc => hc.2.2 rfl)]
  have htl := findIdx_attrMatches_eq _ (getRowUid rb) j rb hg1 hg1j hattr
  unfold shiftClickContent
  simp only [hfilters, har, htr, hfi, hfj, htl, driveRowAt, hg1j]
  have hlen1 : (((((g.map getRowUid).drop (min i j)).take
      (max i j + 1 - min i j))).foldl
      (fun (acc : List Row) (u : String) =>
        if u == getRowUid ra || u == getRowUid rb then acc
        else processRangeUid acc u m) g).length = g.length := by
    have := congrArg List.length hmap1
    simpa using this
  have hjlen : j < g.length := (List.getElem?_eq_some_iff.mp hj).1
  have hra_iff : getRowUid r = getRowUid ra ↔ k = i := by
    constructor
    · intro he
      exact nodup_getElemQ_inj hnd
        (by rw [List.getElem?_map, hk]; simp [he])
        (show (g.map getRowUid)[i]? = some (getRowUid ra) by
          rw [List.getElem?_map, hi]; rfl)
    · intro he
      subst he
      rw [hk] at hi
      rw [Option.some.inj hi]
  have hrb_iff : getRowUid r = getRowUid rb ↔ k = j := by
    constructor
    · intro he
      exact nodup_getElemQ_inj hnd
        (by rw [List.getElem?_map, hk]; simp [he])
        (show (g.map getRowUid)[j]? = some (getRowUid rb) by
          rw [List.getElem?_map, hj]; rfl)
    · intro he
      subst he
      rw [hk] at hj
      rw [Option.some.inj hj]
  have hminmax : min i j ≤ max i j :=
    le_trans (Nat.min_le_left i j) (Nat.le_max_left i j)
  by_cases hkj : k = j
  · subst hkj
    have hrrb : r = rb := by
      rw [hk] at hj
      exact Option.some.inj hj
    subst hrrb
    rw [List.getElem?_set_self (by rw [hlen1]; exact hjlen)]
    rw [if_pos (Or.inr rfl)]
  · rw [List.getElem?_set_ne (fun e => hkj e.symm), hpt1 k r hk]
    have hmem_iff := mem_slice_iff (g.map getRowUid) hnd k (getRowUid r)
      (by rw [List.getElem?_map, hk]; rfl) (min i j) (max i j + 1 - min i j)
    have hiff : (getRowUid r ∈
        ((g.map getRowUid).drop (min i j)).take (max i j + 1 - min i j) ∧
        getRowUid r ≠ getRowUid ra ∧ getRowUid r ≠ getRowUid rb)
        ↔ ((min i j ≤ k ∧ k ≤ max i j ∧ k ≠ i) ∨ k = j) := by
      constructor
      · rintro ⟨hmem, hne1, hne2⟩
        obtain ⟨hlo, hhi⟩ := hmem_iff.mp hmem
        exact Or.inl ⟨hlo, by omega, fun e => hne1 (hra_iff.mpr e)⟩
      · rintro (⟨h1, h2, h3⟩ | he)
        · exact ⟨hmem_iff.mpr ⟨h1, by omega⟩,
            fun e => h3 (hra_iff.mp e), fun e => hkj (hrb_iff.mp e)⟩
        · exact absurd he hkj
    rw [if_congr hiff rfl rfl]

/-- Composite behaviour of the two-gesture experiment on a well-formed
grid whose anchor row starts unselected and whose target row is
attribute-locatable: the plain click drives the anchor row (the toggle
selects it), the shift-click drives the rest of the inclusive range, and
the anchor ends at the plain-clicked row. -/
theorem runPair_char (g : List Row) (i j : Nat) (ra rb : Row) (m : Bool)
    (hg : GoodGrid g) (hi : g[i]? = some ra) (hj : g[j]? = some rb)
    (hrasel : rowSelected ra = false)
    (hattrB : attrMatches (getRowUid rb) rb = true)
    (hattrA : attrMatches (getRowUid ra) ra = true) :
    (∀ (k : Nat) (r : Row), g[k]? = some r →
      (runPair g i j m).1[k]? =
        some (if min i j ≤ k ∧ k ≤ max i j then driveRowContent r m else r)) ∧
    (runPair g i j m).2 = some (driveRowContent ra m) := by
  obtain ⟨hnd, hall⟩ := hg
  have hg' : GoodGrid g := ⟨hnd, hall⟩
  have hcbA : ra.checkbox.isSome = true := (hall ra (List.getElem?_mem hi)).2.2.2
  obtain ⟨cba, hcba⟩ := Option.isSome_iff_exists.mp hcbA
  have hpr : plainClickRow ra m = driveRowContent ra m :=
    plainClickRow_of_unselected ra m hrasel hcbA
  have hs1 : handleClickContent g none false i m =
      (g.set i (driveRowContent ra m), some (driveRowContent ra m)) := by
    simp [handleClickContent, hi, hcba, ← hpr]
  have hrun : runPair g i j m =
      handleClickContent (g.set i (driveRowContent ra m))
        (some (driveRowContent ra m)) true j m := by
    unfold runPair
    rw [hs1]
  have hgoodA : GoodGrid (g.set i (driveRowContent ra m)) :=
    goodGrid_set_drive g i ra m hg' hi
  have hilen : i < g.length := (List.getElem?_eq_some_iff.mp hi).1
  have hAi : (g.set i (driveRowContent ra m))[i]? =
      some (driveRowContent ra m) := List.getElem?_set_self hilen
  have hdrvSome : (driveRowContent ra m).checkbox.isSome = true := by
    rw [(driveRowContent_fields ra m).2.2.2.2.2.2.2]
    exact hcbA
  obtain ⟨cbd, hcbd⟩ := Option.isSome_iff_exists.mp hdrvSome
  by_cases hij : i = j
  · subst hij
    have hrba : ra = rb := by
      rw [hi] at hj
      exact Option.some.inj hj
    subst hrba
    have hshift : handleClickContent (g.set i (driveRowContent ra m))
        (some (driveRowContent ra m)) true i m =
        (shiftClickContent (g.set i (driveRowContent ra m))
          (driveRowContent ra m) (driveRowContent ra m) m,
         some (driveRowContent ra m)) := by
      simp [handleClickContent, hAi, hcbd]
    have hattrD : attrMatches (getRowUid (driveRowContent ra m))
        (driveRowContent ra m) = true := by
      rw [getRowUid_driveRowContent, attrMatches_driveRowContent]
      exact hattrA
    have hchar := shiftClickContent_char (g.set i (driveRowContent ra m)) i i
      (driveRowContent ra m) (driveRowContent ra m)
      (driveRowContent ra m) (driveRowContent ra m) m
      hgoodA hAi hAi rfl rfl hattrD
    rw [hrun, hshift]
    refine ⟨?_, rfl⟩
    intro k r hk
    by_cases hki : k = i
    · subst hki
      have hrra : r = ra := by
        rw [hk] at hi
        exact Option.some.inj hi
      subst hrra
      rw [hchar k (driveRowContent r m) hAi]
      rw [if_pos (Or.inr rfl), if_pos (by simp), driveRowContent_idem]
    · have hAk : (g.set i (driveRowContent ra m))[k]? = some r := by
        rw [List.getElem?_set_ne (fun e => hki e.symm)]
        exact hk
      rw [hchar k r hAk]
      rw [if_neg (by
        rintro (⟨h1, h2, h3⟩ | he)
        · exact hki (by omega)
        · exact hki he)]
      rw [if_neg (by
        rintro ⟨h1, h2⟩
        exact hki (by omega))]
  · have hAj : (g.set i (driveRowContent ra m))[j]? = some rb := by
      rw [List.getElem?_set_ne hij]
      exact hj
    have hcbB : rb.checkbox.isSome = true :=
      (hall rb (List.getElem?_mem hj)).2.2.2
    obtain ⟨cbb, hcbb⟩ := Option.isSome_iff_exists.mp hcbB
    have hshift : handleClickContent (g.set i (driveRowContent ra m))
        (some (driveRowContent ra m)) true j m =
        (shiftClickContent (g.set i (driveRowContent ra m))
          (driveRowContent ra m) rb m,
         some (driveRowContent ra m)) := by
      simp [handleClickContent, hAj, hcbb]
    have hchar := shiftClickContent_char (g.set i (driveRowContent ra m)) i j
      (driveRowContent ra m) rb (driveRowContent ra m) rb m
      hgoodA hAi hAj (by rw [getRowUid_driveRowContent]) rfl hattrB
    rw [hrun, hshift]
    refine ⟨?_, rfl⟩
    intro k r hk
    by_cases hki : k = i
    · subst hki
      have hrra : r = ra := by
        rw [hk] at hi
        exact Option.some.inj hi
      subst hrra
      rw [hchar k (driveRowContent r m) hAi]
      rw [if_neg (by
        rintro (⟨h1, h2, h3⟩ | he)
        · exact h3 rfl
        · exact hij he)]
      rw [if_pos ⟨Nat.min_le_left k j, Nat.le_max_left k j⟩]
    · have hAk : (g.set i (driveRowContent ra m))[k]? = some r := by
        rw [List.getElem?_set_ne (fun e => hki e.symm)]
        exact hk
      rw [hchar k r hAk]
      have hiff : ((min i j ≤ k ∧ k ≤ max i j ∧ k ≠ i) ∨ k = j)
          ↔ (min i j ≤ k ∧ k ≤ max i j) := by
        constructor
        · rintro (⟨h1, h2, _⟩ | he)
          · exact ⟨h1, h2⟩
          · subst he
            exact ⟨Nat.min_le_right i k, Nat.le_max_right i k⟩
        · rintro ⟨h1, h2⟩
          by_cases hkj : k = j
          · exact Or.inr hkj
          · exact Or.inl ⟨h1, h2, hki⟩
      rw [if_congr hiff rfl rfl]

/-- One range-loop iteration never changes the number of rows. -/
theorem processRangeUid_length (g : List Row) (u : String) (m : Bool) :
    (processRangeUid g u m).length = g.length := by
  unfold processRangeUid
  split
  · unfold driveRowAt
    split
    · simp
    · rfl
  · rfl

/-- The range loop never changes the number of rows. -/
theorem rangeLoop_length (m : Bool) (sU eU : String) :
    ∀ (us : List String) (g : List Row),
      (us.foldl (fun (acc : List Row) (u : String) =>
        if u == sU || u == eU then acc else processRangeUid acc u m) g).length
      = g.length := by
  intro us
  induction us with
  | nil => intro g; rfl
  | cons u us ih =>
    intro g
    rw [List.foldl_cons, ih]
    split
    · rfl
    · exact processRangeUid_length g u m

/-- The shift-click branch never changes the number of rows. -/
theorem shiftClickContent_length (g : List Row) (ar tr : Row) (m : Bool) :
    (shiftClickContent g ar tr m).length = g.length := by
  simp only [shiftClickContent]
  split
  · split
    · unfold driveRowAt
      split
      · rw [List.length_set]
        exact rangeLoop_length m (getRowUid ar) (getRowUid tr) _ g
      · exact rangeLoop_length m (getRowUid ar) (getRowUid tr) _ g
    · exact rangeLoop_length m (getRowUid ar) (getRowUid tr) _ g
  · rfl

/-- The click handler never changes the number of rows. -/
theorem handleClickContent_length (g : List Row) (anc : Option Row)
    (sh : Bool) (t : Nat) (m : Bool) :
    (handleClickContent g anc sh t m).1.length = g.length := by
  unfold handleClickContent
  split
  · rfl
  · split
    · rfl
    · split
      · simp [shiftClickContent_length]
      · simp

/-- The two-gesture experiment never changes the number of rows. -/
theorem runPair_length (g : List Row) (i j : Nat) (m : Bool) :
    (runPair g i j m).1.length = g.length := by
  unfold runPair
  rw [handleClickContent_length, handleClickContent_length]

/-- C1 (amended): on a grid of visible, pairwise-distinct,
attribute-coherent rows each carrying a checkbox, with both endpoint rows
attribute-locatable and both initially unselected, a plain click on the
row at `i` followed by a shift-click on the row at `j` leaves exactly the
rows of the inclusive index range driven to the selected state (the plain
click drives the anchor via its toggle, the shift-click drives the rest),
leaves every row outside the range entirely untouched, yields the same
selected set in either click order, and keeps the anchor at the
plain-clicked row. -/
theorem rangeSelect_inclusive_of_unselected_endpoints
    (g : List Row) (i j : Nat) (ra rb : Row) (m : Bool)
    (hg : GoodGrid g)
    (hi : g[i]? = some ra) (hj : g[j]? = some rb)
    (hrasel : rowSelected ra = false) (hrbsel : rowSelected rb = false)
    (hattrA : attrMatches (getRowUid ra) ra = true)
    (hattrB : attrMatches (getRowUid rb) rb = true) :
    (∀ (k : Nat) (r : Row), g[k]? = some r →
      (runPair g i j m).1[k]? =
        some (if min i j ≤ k ∧ k ≤ max i j then driveRowContent r m else r)) ∧
    (∀ (k : Nat) (r : Row), g[k]? = some r → min i j ≤ k → k ≤ max i j →
      ((runPair g i j m).1[k]?.map rowSelected) = some true) ∧
    (runPair g i j m).2 = some (driveRowContent ra m) ∧
    getRowUid (driveRowContent ra m) = getRowUid ra ∧
    (∀ (k : Nat), ((runPair g i j m).1[k]?.map rowSelected)
      = ((runPair g j i m).1[k]?.map rowSelected)) := by
  obtain ⟨hchar1, hanch1⟩ :=
    runPair_char g i j ra rb m hg hi hj hrasel hattrB hattrA
  obtain ⟨hchar2, _⟩ :=
    runPair_char g j i rb ra m hg hj hi hrbsel hattrA hattrB
  refine ⟨hchar1, ?_, hanch1, getRowUid_driveRowContent ra m, ?_⟩
  · intro k r hk h1 h2
    rw [hchar1 k r hk, if_pos ⟨h1, h2⟩]
    have hcbr : r.checkbox.isSome = true :=
      (hg.2 r (List.getElem?_mem hk)).2.2.2
    simp [rowSelected_driveRowContent r m hcbr]
  · intro k
    by_cases hklen : k < g.length
    · obtain ⟨r, hrk⟩ : ∃ r, g[k]? = some r := by
        cases hgk : g[k]? with
        | none =>
          rw [List.getElem?_eq_none_iff] at hgk
          omega
        | some r => exact ⟨r, rfl⟩
      rw [hchar1 k r hrk, hchar2 k r hrk, Nat.min_comm j i, Nat.max_comm j i]
    · have h1 : (runPair g i j m).1[k]? = none := by
        rw [List.getElem?_eq_none_iff, runPair_length]
        omega
      have h2 : (runPair g j i m).1[k]? = none := by
        rw [List.getElem?_eq_none_iff, runPair_length]
        omega
      rw [h1, h2]

/-- The two-row grid whose first row starts out selected. -/
def gPre : List Row := [mkRow "a" true, mkRow "b" false]

/-- C1 counterexample: with the anchor row initially selected, the plain
click toggles it off and the shift-click's range loop explicitly skips
the anchor uid, so after clicking row 0 and shift-clicking row 1 the
anchor row — inside the inclusive range — ends unselected: the selected
set is {row 1}, not the whole inclusive range as the claim states. -/
theorem rangeSelect_preselected_anchor_not_selected :
    rowSelected (mkRow "a" true) = true ∧
    ((runPair gPre 0 1 false).1.map rowSelected) = [false, true] := by
  refine ⟨rfl, by decide⟩

/-- C1 witness: the amended range theorem applied to a three-row grid,
clicking row 0 then shift-clicking row 2. -/
theorem rangeSelect_inclusive_witness :
    (runPair [mkRow "r0" false, mkRow "r1" false, mkRow "r2" false] 0 2
      false).2 = some (driveRowContent (mkRow "r0" false) false) := by
  exact (rangeSelect_inclusive_of_unselected_endpoints
    [mkRow "r0" false, mkRow "r1" false, mkRow "r2" false] 0 2
    (mkRow "r0" false) (mkRow "r2" false) false
    ⟨by decide, by decide⟩ rfl rfl rfl rfl (by decide) (by decide)).2.2.1
